import Mathlib

/-!
Verification of the topic-selection / duplicate-suppression / response-parsing
core of the moto-news agents (src/agents/user_agent.py and
src/agents/site_assessor.py), as a shallow embedding in Lean 4.

Modelling conventions:
* Python strings are Lean `String` (operations are implemented on `List Char`).
* Python floats are modelled as `ℚ`; every arithmetic operation performed by
  the embedded code (Jaccard ratios, threshold comparisons) is exact at the
  values the code computes, so no rounding behaviour is lost.
* Python `str.lower` and the regex classes `\w`, `\s` are Unicode-aware; the
  embedding implements them for the character ranges that occur in this
  repository (ASCII and Cyrillic), which is what the source data uses.
* Fallible Python code is embedded as `Except`: an uncaught Python exception
  is an `Except.error`.
* Loops are embedded either structurally or with an explicit fuel argument
  (fuel is always instantiated generously; all recursions are structural so
  that concrete evaluation by `rfl`/`decide` works in the kernel).
-/

/-! ## Character and string primitives (Python semantics) -/

/-- Python `str.lower` per character, for the ASCII and Cyrillic ranges used
by the repository data (`А`..`Я` is U+0410..U+042F, lowercased by +32, and
`Ё` lowers to `ё`). -/
def toLowerChar (c : Char) : Char :=
  if 'A' ≤ c ∧ c ≤ 'Z' then Char.ofNat (c.toNat + 32)
  else if 'А' ≤ c ∧ c ≤ 'Я' then Char.ofNat (c.toNat + 32)
  else if c = 'Ё' then 'ё'
  else c

/-- The regex class `\w` (word character), for ASCII and Cyrillic. -/
def isWordChar (c : Char) : Bool :=
  c.isAlphanum || c = '_' || ('а' ≤ c && c ≤ 'я') || ('А' ≤ c && c ≤ 'Я')
    || c = 'ё' || c = 'Ё'

/-- The regex class `\s` / Python whitespace (the ASCII whitespace
characters; space, tab, newline, carriage return, vertical tab, form feed). -/
def pyWsChar (c : Char) : Bool :=
  c = ' ' || c = '\t' || c = '\n' || c = '\r' || c = '\x0b' || c = '\x0c'

/-- Python `str.lower` on a whole string. -/
def pyLower (s : String) : String :=
  String.mk (s.toList.map toLowerChar)

/-- Drop the trailing elements of a list satisfying `p`. -/
def dropTrailing (p : Char → Bool) (l : List Char) : List Char :=
  (l.reverse.dropWhile p).reverse

/-- Python `str.strip()` (strip whitespace from both ends). -/
def pyStrip (s : String) : String :=
  String.mk (dropTrailing pyWsChar (s.toList.dropWhile pyWsChar))

/-- Python `str.strip(chars)` (strip any of the given characters from both
ends). -/
def pyStripChars (cset : List Char) (s : String) : String :=
  String.mk (dropTrailing (fun c => cset.contains c)
    (s.toList.dropWhile (fun c => cset.contains c)))

/-- Python `str.split()` with no separator: split on whitespace runs and
drop empty tokens.  `acc` accumulates the current word reversed. -/
def wordsAux : List Char → List Char → List (List Char)
  | [], acc => if acc.isEmpty then [] else [acc.reverse]
  | c :: cs, acc =>
    if pyWsChar c then
      if acc.isEmpty then wordsAux cs [] else acc.reverse :: wordsAux cs []
    else wordsAux cs (c :: acc)

/-! ## SimilarityEngine: `_text_to_trigrams` and `_similarity`
(src/agents/user_agent.py lines 508-532) -/

/-- Keep exactly the characters the cleaning regex `[^\w\s]` does not
remove. -/
def keepChar (c : Char) : Bool := isWordChar c || pyWsChar c

/-- The normalization inside `_text_to_trigrams`:
`re.sub(r'[^\w\s]', '', text.lower())`, as a character list. -/
def cleanChars (s : String) : List Char :=
  (s.toList.map toLowerChar).filter keepChar

/-- The trigrams contributed by one word: all 3-character substrings, and
nothing for words shorter than 3 characters. -/
def wordTrigrams (w : List Char) : List String :=
  if w.length < 3 then []
  else (List.range (w.length - 2)).map (fun i => String.mk ((w.drop i).take 3))

/-- Embeds `_text_to_trigrams`: lowercase, strip punctuation, split into
words, and collect per-word character trigrams into a set. -/
def _text_to_trigrams (text : String) : Finset String :=
  (((wordsAux (cleanChars text) []).map wordTrigrams).flatten).toFinset

/-- Embeds `_similarity`: Jaccard index of two sets, `0.0` if either is
empty. -/
def _similarity (set_a set_b : Finset String) : ℚ :=
  if set_a = ∅ ∨ set_b = ∅ then 0
  else ((set_a ∩ set_b).card : ℚ) / ((set_a ∪ set_b).card : ℚ)

/-- Trigram similarity of two raw texts (the composition the agents use). -/
def simText (a b : String) : ℚ :=
  _similarity (_text_to_trigrams a) (_text_to_trigrams b)

/-! ## Data model: discussions (posts) and topics -/

/-- An existing GitHub discussion, as consumed by the dedup and coverage
checks: `number`, `title`, `body`, and the list of label names (the Python
code reads them from `labels.nodes[].name`). -/
structure Discussion where
  number : Nat
  title : String
  body : String
  labels : List String
deriving DecidableEq

/-- Embeds `_has_label` (src/agents/user_agent.py lines 323-329):
case-insensitive membership of a label name. -/
def _has_label (d : Discussion) (label_name : String) : Bool :=
  d.labels.any (fun l => pyLower l = pyLower label_name)

/-- A roster topic: stable id, display name, prompt focus, keyword
fingerprint. -/
structure Topic where
  id : String
  name : String
  prompt_focus : String
  keywords : List String
deriving DecidableEq

/-! ### The fixed TOPIC_ROSTER (src/agents/user_agent.py lines 58-189) -/

def topicSeo : Topic :=
  ⟨"seo", "SEO и метаданные",
   "Проанализируй SEO-оптимизацию сайта: мета-теги (title, description), структуру заголовков (H1-H6), alt-тексты изображений, URL-структуру, наличие sitemap.xml и robots.txt. Укажи конкретные страницы с проблемами.",
   ["seo", "мета", "метаданные", "описание", "title", "description",
    "robots", "sitemap", "заголовок", "h1", "поисковая оптимизация"]⟩

def topicNavigation : Topic :=
  ⟨"navigation", "UX и навигация",
   "Проанализируй навигацию сайта: главное меню, хлебные крошки, удобство перемещения между статьями, пагинацию, структуру категорий и тегов. Укажи конкретные проблемы навигации.",
   ["навигация", "меню", "ux", "категории", "теги", "пагинация",
    "хлебные крошки", "breadcrumb", "удобство"]⟩

def topicMobile : Topic :=
  ⟨"mobile", "Мобильная адаптивность",
   "Проанализируй мобильную адаптивность сайта: отображение на маленьких экранах, размеры шрифтов и кнопок, удобство чтения статей на телефоне, адаптивность изображений и таблиц.",
   ["мобильн", "адаптив", "responsive", "экран", "телефон",
    "смартфон", "touch", "viewport"]⟩

def topicPerformance : Topic :=
  ⟨"performance", "Скорость загрузки и производительность",
   "Проанализируй производительность сайта: размер страниц, количество запросов, оптимизацию изображений, использование кэширования, минификацию CSS/JS, lazy loading.",
   ["скорость", "производительность", "загрузка", "performance",
    "кэш", "cache", "минификация", "оптимизация", "lazy"]⟩

def topicContentStructure : Topic :=
  ⟨"content_structure", "Структура контента и архив",
   "Проанализируй организацию контента: систему категорий и тегов, архив статей, связи между похожими статьями, оглавление внутри длинных статей, серии статей.",
   ["структура", "контент", "архив", "категория", "тег",
    "оглавление", "серия", "связанные статьи", "table of contents"]⟩

def topicImages : Topic :=
  ⟨"images", "Изображения и медиа",
   "Проанализируй работу с изображениями: наличие alt-текстов, оптимизацию размеров, использование современных форматов (WebP), lazy loading, подписи к изображениям, галереи.",
   ["изображен", "картинк", "фото", "alt", "webp", "галерея",
    "медиа", "image", "lazy loading"]⟩

def topicSocial : Topic :=
  ⟨"social", "Социальные сети и шеринг",
   "Проанализируй интеграцию с социальными сетями: Open Graph теги, Twitter Card теги, кнопки шеринга, превью при расшаривании ссылок, наличие ссылок на соцсети автора.",
   ["социальн", "шеринг", "share", "open graph", "og:", "twitter",
    "facebook", "telegram", "соцсет"]⟩

def topicRss : Topic :=
  ⟨"rss", "RSS и подписка",
   "Проанализируй возможности подписки на обновления: наличие и корректность RSS/Atom фида, удобность обнаружения фида, email-подписку, уведомления о новых статьях.",
   ["rss", "atom", "фид", "feed", "подписк", "subscription",
    "email", "уведомлен", "newsletter"]⟩

def topicAccessibility : Topic :=
  ⟨"accessibility", "Доступность (a11y)",
   "Проанализируй доступность сайта: контрастность текста, навигацию с клавиатуры, ARIA-атрибуты, альтернативные тексты, семантическую разметку, поддержку скринридеров.",
   ["доступност", "a11y", "accessibility", "aria", "контраст",
    "клавиатур", "скринридер", "screen reader", "семантич"]⟩

def topicInternalLinks : Topic :=
  ⟨"internal_links", "Внутренняя перелинковка",
   "Проанализируй внутреннюю перелинковку: связи между статьями, битые внутренние ссылки, якорные ссылки, блоки «Похожие статьи», навигацию «предыдущая/следующая статья».",
   ["перелинков", "внутренн", "ссылк", "битые", "якорн",
    "похожие статьи", "related", "internal link"]⟩

/-- The fixed ordered roster; order establishes priority. -/
def TOPIC_ROSTER : List Topic :=
  [topicSeo, topicNavigation, topicMobile, topicPerformance,
   topicContentStructure, topicImages, topicSocial, topicRss,
   topicAccessibility, topicInternalLinks]

/-! ## Topic coverage and topic selection
(src/agents/user_agent.py lines 585-655) -/

/-- The topic fingerprint text built inside `_topic_is_covered`:
`" ".join(topic["keywords"]) + " " + topic["name"]`. -/
def fingerprintText (topic : Topic) : String :=
  String.intercalate " " topic.keywords ++ " " ++ topic.name

/-- The `title + " " + body` text of a discussion, used by both coverage and
dedup. -/
def discText (d : Discussion) : String := d.title ++ " " ++ d.body

/-- Embeds `_topic_is_covered`.  The thresholds are the Python keyword
arguments (call sites use the defaults `0.15` / `0.25`). -/
def _topic_is_covered (topic : Topic) (discussions : List Discussion)
    (wontfix_threshold normal_threshold : ℚ) : Bool :=
  let topic_trigrams := _text_to_trigrams (fingerprintText topic)
  if topic_trigrams = ∅ then false
  else discussions.any (fun d =>
    let sim := _similarity topic_trigrams (_text_to_trigrams (discText d))
    let threshold := if _has_label d "wontfix" then wontfix_threshold
                     else normal_threshold
    decide (threshold ≤ sim))

/-- Embeds `_pick_topic`: first roster entry that is neither in `skip_ids`
nor covered (coverage uses the default thresholds `0.15` / `0.25`). -/
def _pick_topic (discussions : List Discussion) (skip_ids : List String) :
    Option Topic :=
  TOPIC_ROSTER.find? (fun topic =>
    !(skip_ids.contains topic.id)
      && !(_topic_is_covered topic discussions (15/100) (25/100)))

/-! ## DuplicateGuard (src/agents/user_agent.py lines 535-578) -/

/-- Number of decimal digits needed to write `q` exactly (capped at 30);
used to model the Python `repr` of the float thresholds. -/
def decDigits (q : ℚ) : Nat :=
  ((List.range 31).find? (fun k => (q * 10 ^ k).den = 1)).getD 0

/-- Left-pad a numeral string with zeros to the given width. -/
def padZeros (w : Nat) (s : String) : String :=
  String.mk (List.replicate (w - s.length) '0') ++ s

/-- Python `str(x)` for the nonnegative decimally-representable floats the
call sites use (for example `str(0.35)` is `"0.35"`). -/
def pyFloatStr (q : ℚ) : String :=
  let k := decDigits q
  if k = 0 then toString q.num ++ ".0"
  else
    let n := (q * 10 ^ k).num.toNat
    toString (n / 10 ^ k) ++ "." ++ padZeros k (toString (n % 10 ^ k))

/-- Round half to even (the rounding used by Python float formatting). -/
def roundHalfEven (x : ℚ) : ℤ :=
  let f := x.floor
  let r := x - f
  if r < 1/2 then f else if 1/2 < r then f + 1
  else if f % 2 = 0 then f else f + 1

/-- Python `f"{x:.2f}"` for nonnegative `x`. -/
def fmt2 (q : ℚ) : String :=
  let n := (roundHalfEven (q * 100)).toNat
  toString (n / 100) ++ "." ++ padZeros 2 (toString (n % 100))

/-- The duplicate reason f-string from `_is_duplicate`:
`Similar to #<number> '<title[:60]>' (similarity=<sim:.2f>,
threshold=<threshold>, <wontfix|existing>)`. -/
def dupReason (d : Discussion) (sim threshold : ℚ) (is_wontfix : Bool) :
    String :=
  "Similar to #" ++ toString d.number ++ " \x27"
    ++ String.mk (d.title.toList.take 60)
    ++ "\x27 (similarity=" ++ fmt2 sim
    ++ ", threshold=" ++ pyFloatStr threshold
    ++ ", " ++ (if is_wontfix then "wontfix" else "existing") ++ ")"

/-- The per-discussion loop of `_is_duplicate`: return at the first
discussion whose similarity meets its threshold. -/
def dupLoop (suggestion_trigrams : Finset String)
    (wontfix_threshold normal_threshold : ℚ) :
    List Discussion → Bool × String
  | [] => (false, "")
  | d :: rest =>
    let sim := _similarity suggestion_trigrams
      (_text_to_trigrams (discText d))
    let is_wontfix := _has_label d "wontfix"
    let threshold := if is_wontfix then wontfix_threshold
                     else normal_threshold
    if threshold ≤ sim then (true, dupReason d sim threshold is_wontfix)
    else dupLoop suggestion_trigrams wontfix_threshold normal_threshold rest

/-- Embeds `_is_duplicate`.  Thresholds are the Python keyword arguments
(call sites use the defaults `0.20` / `0.35`). -/
def _is_duplicate (title body : String) (discussions : List Discussion)
    (wontfix_threshold normal_threshold : ℚ) : Bool × String :=
  let suggestion_trigrams := _text_to_trigrams (title ++ " " ++ body)
  if suggestion_trigrams = ∅ then (false, "")
  else dupLoop suggestion_trigrams wontfix_threshold normal_threshold
    discussions

/-- The threshold `_is_duplicate` / `_topic_is_covered` applies to a given
discussion. -/
def labelThreshold (wontfix_threshold normal_threshold : ℚ)
    (d : Discussion) : ℚ :=
  if _has_label d "wontfix" then wontfix_threshold else normal_threshold

/-- The similarity `_is_duplicate` computes between a suggestion and a
discussion. -/
def dupSim (title body : String) (d : Discussion) : ℚ :=
  _similarity (_text_to_trigrams (title ++ " " ++ body))
    (_text_to_trigrams (discText d))

/-- The similarity `_topic_is_covered` computes between a topic fingerprint
and a discussion. -/
def coverSim (topic : Topic) (d : Discussion) : ℚ :=
  _similarity (_text_to_trigrams (fingerprintText topic))
    (_text_to_trigrams (discText d))

/-! ## RetryOrchestrator: the attempt loops of `run_once`
(src/agents/user_agent.py lines 681-796) and `run_assessment`
(src/agents/site_assessor.py lines 265-280).

The try-body of one attempt is modelled as `op : Nat → Except String String`
mapping the attempt number to its outcome (`error` is a raised exception,
carrying `str(e)`).  Sleeps are recorded as the list of delays passed to
`time.sleep`.  The overall result is `Except String String`: a value of the
form `.error e` would be an exception propagating out of the loop. -/

def MAX_RETRIES : Nat := 3

def RETRY_DELAY_SECONDS : Nat := 15

/-- The error message returned after the retry budget is exhausted:
`f"Error after {max_retries} retries: {last_error}"`. -/
def retriesErrMsg (maxR : Nat) (lastError : Option String) : String :=
  "Error after " ++ toString maxR ++ " retries: " ++ lastError.getD "None"

/-- The attempt loop.  `remaining` is the number of attempts left (the loop
runs attempts `attempt, attempt+1, ...` while `remaining > 0`); a sleep of
`base * attempt` happens only when a failed attempt is not the last one. -/
def retryGo (op : Nat → Except String String) (base maxR : Nat) :
    Nat → Nat → Option String → List Nat × Except String String
  | 0, _, lastError => ([], .ok (retriesErrMsg maxR lastError))
  | remaining + 1, attempt, _ =>
    match op attempt with
    | .ok res => ([], .ok res)
    | .error e =>
      let rest := retryGo op base maxR remaining (attempt + 1) (some e)
      if remaining = 0 then rest
      else (base * attempt :: rest.1, rest.2)

/-- The retry wrapper: attempts `1 .. maxR` with linear backoff
`base * attempt` between failed attempts. -/
def withRetry (op : Nat → Except String String) (maxR base : Nat) :
    List Nat × Except String String :=
  retryGo op base maxR maxR 1 none

/-- The retry loop of `run_once` (`MAX_RETRIES = 3`,
`RETRY_DELAY_SECONDS = 15`). -/
def run_once_retry (op : Nat → Except String String) :
    List Nat × Except String String :=
  withRetry op MAX_RETRIES RETRY_DELAY_SECONDS

/-- The retry loop of `run_assessment` (`max_retries = 3`, delay
`15 * attempt`). -/
def run_assessment_retry (op : Nat → Except String String) :
    List Nat × Except String String :=
  withRetry op 3 15

/-! ## The inner topic-selection loop of `run_once`
(src/agents/user_agent.py lines 699-738).

One pipeline attempt repeatedly picks a topic, asks the LLM (modelled as a
function `llm` from the topic id to the parsed suggestion, since each topic
is consulted at most once per attempt), and either exits (no topic left, or
a unique suggestion found) or adds the topic id to `skip_ids` and loops.
`fuel` bounds the number of non-exiting iterations; running out of fuel
yields `none`.  Executions in which the LLM call raises leave the loop by
exception and are outside this model. -/

structure Sug where
  title : String
  body : String
deriving DecidableEq

inductive LoopResult where
  | noTopic
  | found (topic : Topic) (suggestion : Sug)
deriving DecidableEq

def innerLoop (discussions : List Discussion) (llm : String → Sug) :
    Nat → List String → Option LoopResult
  | fuel, skip_ids =>
    match _pick_topic discussions skip_ids with
    | none => some .noTopic
    | some topic =>
      let sug := llm topic.id
      if sug.title = "" && sug.body = "" then
        match fuel with
        | 0 => none
        | fuel' + 1 => innerLoop discussions llm fuel' (topic.id :: skip_ids)
      else if (_is_duplicate sug.title sug.body discussions
          (20/100) (35/100)).1 then
        match fuel with
        | 0 => none
        | fuel' + 1 => innerLoop discussions llm fuel' (topic.id :: skip_ids)
      else some (.found topic sug)

/-! ## ResponseParser: `_parse_llm_json` and `_sanitize_json_string`
(src/agents/user_agent.py lines 388-501).

`json.loads` is embedded as a strict JSON parser producing `PyJson`
(numbers as `ℚ`; `NaN` / `Infinity` kept as distinguished constants, as
Python json accepts them).  A `\uXXXX` escape is decoded to the character
of that code point when it is a Unicode scalar value; surrogate pairs do
not occur in any input this development evaluates.  An uncaught Python
exception is an `Except.error` carrying the exception class. -/

inductive PyJson where
  | null
  | boolean (b : Bool)
  | num (q : ℚ)
  | nan
  | inf (neg : Bool)
  | str (s : String)
  | arr (elems : List PyJson)
  | obj (members : List (String × PyJson))

inductive PyErr where
  | attributeError
  | valueError
deriving DecidableEq

/-- JSON inter-token whitespace (Python json: space, tab, newline, CR). -/
def jsonWs (c : Char) : Bool :=
  c = ' ' || c = '\t' || c = '\n' || c = '\r'

def skipJsonWs (cs : List Char) : List Char := cs.dropWhile jsonWs

def hexVal (c : Char) : Option Nat :=
  if '0' ≤ c ∧ c ≤ '9' then some (c.toNat - 48)
  else if 'a' ≤ c ∧ c ≤ 'f' then some (c.toNat - 87)
  else if 'A' ≤ c ∧ c ≤ 'F' then some (c.toNat - 55)
  else none

/-- Strict JSON string body (after the opening quote): control characters
below U+0020 are rejected, escapes are the eight JSON escapes plus
`\uXXXX`.  Returns the decoded content and the remainder after the closing
quote. -/
def parseJStr : Nat → List Char → Option (List Char × List Char)
  | 0, _ => none
  | fuel + 1, cs =>
    match cs with
    | [] => none
    | c :: rest =>
      if c = '"' then some ([], rest)
      else if c = '\\' then
        match rest with
        | [] => none
        | e :: rest2 =>
          if e = 'u' then
            match rest2 with
            | h1 :: h2 :: h3 :: h4 :: rest3 =>
              match hexVal h1, hexVal h2, hexVal h3, hexVal h4 with
              | some n1, some n2, some n3, some n4 =>
                let code := ((n1 * 16 + n2) * 16 + n3) * 16 + n4
                (parseJStr fuel rest3).map
                  (fun p => (Char.ofNat code :: p.1, p.2))
              | _, _, _, _ => none
            | _ => none
          else
            let dec : Option Char :=
              if e = '"' then some '"'
              else if e = '\\' then some '\\'
              else if e = '/' then some '/'
              else if e = 'b' then some (Char.ofNat 8)
              else if e = 'f' then some (Char.ofNat 12)
              else if e = 'n' then some '\n'
              else if e = 'r' then some '\r'
              else if e = 't' then some '\t'
              else none
            match dec with
            | some d =>
              (parseJStr fuel rest2).map (fun p => (d :: p.1, p.2))
            | none => none
      else if c.toNat < 32 then none
      else (parseJStr fuel rest).map (fun p => (c :: p.1, p.2))

def digitsToNat (ds : List Char) : Nat :=
  ds.foldl (fun a c => a * 10 + (c.toNat - 48)) 0

/-- JSON number at the current position, per the Python json NUMBER_RE
`(-?(?:0|[1-9]\d*))(\.\d+)?([eE][-+]?\d+)?` (leading zeros rejected,
optional fraction and exponent groups simply do not participate when
malformed). -/
def parseJNum (cs : List Char) : Option (ℚ × List Char) :=
  let signed := match cs with
    | '-' :: r => some (true, r)
    | _ => some (false, cs)
  match signed with
  | some (neg, cs1) =>
    let intPart : Option (Nat × List Char) :=
      match cs1 with
      | '0' :: r => some (0, r)
      | c :: _ =>
        if c.isDigit then
          some (digitsToNat (cs1.takeWhile Char.isDigit),
                cs1.dropWhile Char.isDigit)
        else none
      | [] => none
    match intPart with
    | none => none
    | some (n, rest1) =>
      let fracPart : Nat × Nat × List Char :=
        match rest1 with
        | '.' :: r2 =>
          let ds := r2.takeWhile Char.isDigit
          if ds.isEmpty then (0, 0, rest1)
          else (digitsToNat ds, ds.length, r2.dropWhile Char.isDigit)
        | _ => (0, 0, rest1)
      match fracPart with
      | (fn, fl, rest2) =>
        let expPart : Bool × Nat × List Char :=
          match rest2 with
          | c :: r3 =>
            if c = 'e' ∨ c = 'E' then
              let (eneg, r4) : Bool × List Char :=
                match r3 with
                | '+' :: r4 => (false, r4)
                | '-' :: r4 => (true, r4)
                | _ => (false, r3)
              let ds := r4.takeWhile Char.isDigit
              if ds.isEmpty then (false, 0, rest2)
              else (eneg, digitsToNat ds, r4.dropWhile Char.isDigit)
            else (false, 0, rest2)
          | [] => (false, 0, rest2)
        match expPart with
        | (eneg, en, rest3) =>
          let base : ℚ := (n : ℚ) + (fn : ℚ) / (10 ^ fl : ℚ)
          let scaled : ℚ :=
            if eneg then base / (10 ^ en : ℚ) else base * (10 ^ en : ℚ)
          some ((if neg then -scaled else scaled), rest3)
  | none => none

mutual

/-- One JSON value at the current position (no leading whitespace). -/
def parseJVal : Nat → List Char → Option (PyJson × List Char)
  | 0, _ => none
  | fuel + 1, cs =>
    match cs with
    | [] => none
    | '"' :: rest =>
      (parseJStr (fuel + 1) rest).map (fun p => (.str (String.mk p.1), p.2))
    | '\x7b' :: rest => parseJObjFirst fuel (skipJsonWs rest)
    | '[' :: rest => parseJArrFirst fuel (skipJsonWs rest)
    | _ =>
      if (String.toList "true").isPrefixOf cs then
        some (.boolean true, cs.drop 4)
      else if (String.toList "false").isPrefixOf cs then
        some (.boolean false, cs.drop 5)
      else if (String.toList "null").isPrefixOf cs then
        some (.null, cs.drop 4)
      else if (String.toList "NaN").isPrefixOf cs then
        some (.nan, cs.drop 3)
      else if (String.toList "Infinity").isPrefixOf cs then
        some (.inf false, cs.drop 8)
      else if (String.toList "-Infinity").isPrefixOf cs then
        some (.inf true, cs.drop 9)
      else (parseJNum cs).map (fun p => (.num p.1, p.2))

/-- Object body after `{` and whitespace: `}` or a first member. -/
def parseJObjFirst : Nat → List Char → Option (PyJson × List Char)
  | 0, _ => none
  | fuel + 1, cs =>
    match cs with
    | '\x7d' :: rest => some (.obj [], rest)
    | _ => (parseJMembers fuel cs).map (fun p => (.obj p.1, p.2))

/-- One or more `"key": value` members, separated by commas, ended by `}`.
Expects a key string at the current position. -/
def parseJMembers : Nat → List Char → Option (List (String × PyJson) × List Char)
  | 0, _ => none
  | fuel + 1, cs =>
    match cs with
    | '"' :: rest =>
      match parseJStr (fuel + 1) rest with
      | none => none
      | some (key, r1) =>
        match skipJsonWs r1 with
        | ':' :: r2 =>
          match parseJVal fuel (skipJsonWs r2) with
          | none => none
          | some (v, r3) =>
            match skipJsonWs r3 with
            | ',' :: r4 =>
              (parseJMembers fuel (skipJsonWs r4)).map
                (fun p => ((String.mk key, v) :: p.1, p.2))
            | '\x7d' :: r4 => some ([(String.mk key, v)], r4)
            | _ => none
        | _ => none
    | _ => none

/-- Array body after `[` and whitespace: `]` or a first element. -/
def parseJArrFirst : Nat → List Char → Option (PyJson × List Char)
  | 0, _ => none
  | fuel + 1, cs =>
    match cs with
    | ']' :: rest => some (.arr [], rest)
    | _ => (parseJElems fuel cs).map (fun p => (.arr p.1, p.2))

/-- One or more array elements, separated by commas, ended by `]`. -/
def parseJElems : Nat → List Char → Option (List PyJson × List Char)
  | 0, _ => none
  | fuel + 1, cs =>
    match parseJVal fuel cs with
    | none => none
    | some (v, r1) =>
      match skipJsonWs r1 with
      | ',' :: r2 =>
        (parseJElems fuel (skipJsonWs r2)).map (fun p => (v :: p.1, p.2))
      | ']' :: r2 => some ([v], r2)
      | _ => none

end

/-- Embeds `json.loads`: skip whitespace, parse one value, reject trailing
data.  `.error ()` is `json.JSONDecodeError`. -/
def jsonLoads (s : String) : Except Unit PyJson :=
  match parseJVal (4 * (s.toList.length + 2)) (skipJsonWs s.toList) with
  | some (v, rest) => if skipJsonWs rest = [] then .ok v else .error ()
  | none => .error ()

/-- Python dict construction from the member list: later duplicate keys
win; `objGet` is `dict.get(key)`. -/
def objGet (members : List (String × PyJson)) (key : String) :
    Option PyJson :=
  members.foldl (fun acc kv => if kv.1 = key then some kv.2 else acc) none

/-- `suggestion.get(key, "").strip()`: a missing key defaults to `""`;
calling `.strip()` on a non-string value raises `AttributeError`. -/
def getStrField (members : List (String × PyJson)) (key : String) :
    Except PyErr String :=
  match objGet members key with
  | none => .ok ""
  | some (.str s) => .ok (pyStrip s)
  | some _ => .error .attributeError

/-- What `_parse_llm_json` does with a successfully decoded JSON value:
`.get` on a non-dict raises `AttributeError`, field values are stripped. -/
def fromJson : PyJson → Except PyErr Sug
  | .obj members => do
    let title ← getStrField members "title"
    let body ← getStrField members "body"
    return ⟨title, body⟩
  | _ => .error .attributeError

/-- Embeds `_sanitize_json_string`: escape raw newlines inside quoted
strings, walking the text with `in_string` / `escape_next` state. -/
def sanitizeAux : List Char → Bool → Bool → List Char
  | [], _, _ => []
  | ch :: rest, in_string, escape_next =>
    if escape_next then ch :: sanitizeAux rest in_string false
    else if ch = '\\' then ch :: sanitizeAux rest in_string true
    else if ch = '"' then ch :: sanitizeAux rest (!in_string) false
    else if in_string ∧ ch = '\n' then
      '\\' :: 'n' :: sanitizeAux rest in_string false
    else ch :: sanitizeAux rest in_string false

def _sanitize_json_string (json_str : String) : String :=
  String.mk (sanitizeAux json_str.toList false false)

/-! ### Literal-substring utilities (Python `in`, `split`, slicing) -/

/-- Python `pat in s` for a character-list text. -/
def containsSub (pat : List Char) : List Char → Bool
  | [] => pat.isPrefixOf []
  | c :: cs => pat.isPrefixOf (c :: cs) || containsSub pat cs

/-- The suffix after the first occurrence of `pat` (the whole list when
`pat` does not occur). -/
def afterFirstLit (pat : List Char) : List Char → List Char
  | [] => []
  | c :: cs => if pat.isPrefixOf (c :: cs) then (c :: cs).drop pat.length
               else afterFirstLit pat cs

/-- The portion before the first occurrence of `pat` (the whole list when
`pat` does not occur); this is Python `s.split(pat)[0]`. -/
def takeBeforeLit (pat : List Char) : List Char → List Char
  | [] => []
  | c :: cs => if pat.isPrefixOf (c :: cs) then []
               else c :: takeBeforeLit pat cs

/-- Step 1 of `_parse_llm_json`: extract the content of a fenced code
block.  `s.split("```json")[1].split("```")[0]` equals the text between the
first ```` ```json ```` and the next ```` ``` ````, and similarly for a
plain fence. -/
def extractFence (result_text : String) : String :=
  let cs := result_text.toList
  if containsSub (String.toList "```json") cs then
    String.mk (takeBeforeLit (String.toList "```")
      (afterFirstLit (String.toList "```json") cs))
  else if containsSub (String.toList "```") cs then
    String.mk (takeBeforeLit (String.toList "```")
      (afterFirstLit (String.toList "```") cs))
  else result_text

/-- Python `str.replace` (all non-overlapping occurrences, left to right);
`fuel` bounds the scan and is instantiated with the text length. -/
def replaceAux (pat rep : List Char) : Nat → List Char → List Char
  | 0, cs => cs
  | fuel + 1, cs =>
    match cs with
    | [] => []
    | c :: rest =>
      if pat.isPrefixOf (c :: rest) ∧ ¬pat.isEmpty then
        rep ++ replaceAux pat rep fuel ((c :: rest).drop pat.length)
      else c :: replaceAux pat rep fuel rest

def pyReplace (s pat rep : String) : String :=
  String.mk (replaceAux pat.toList rep.toList s.toList.length s.toList)

/-! ### The regex fallbacks of step 4, as dedicated matchers.

Each Python pattern is compiled by hand to a deterministic scanner that
reproduces leftmost search and the greedy/lazy semantics of the pattern on
the relevant character classes (worked out in the comments below). -/

/-- Characters before the next `"` (`none` when no quote follows).  This is
what the group `([^"]*(?:\\.[^"]*)*)"` matches: the leading `[^"]*` is
greedy and also consumes backslashes, so the whole group always ends at
the first following quote (the starred tail participates only on overall
failure, which then fails the whole position). -/
def takeUntilQuote : List Char → Option (List Char)
  | [] => none
  | c :: cs => if c = '"' then some []
               else (takeUntilQuote cs).map (fun l => c :: l)

/-- Attempt the title pattern `"title"\s*:\s*"([^"]*(?:\\.[^"]*)*)"` at the
current position; returns the raw captured group. -/
def matchTitleAt (cs : List Char) : Option (List Char) :=
  if (String.toList "\"title\"").isPrefixOf cs then
    match (cs.drop 7).dropWhile pyWsChar with
    | ':' :: r2 =>
      match r2.dropWhile pyWsChar with
      | '"' :: r3 => takeUntilQuote r3
      | _ => none
    | _ => none
  else none

/-- `re.search` for the title pattern: leftmost position that matches. -/
def searchTitle : List Char → Option (List Char)
  | [] => none
  | c :: cs =>
    match matchTitleAt (c :: cs) with
    | some g => some g
    | none => searchTitle cs

/-- For the greedy body pattern `"body"\s*:\s*"(.+)"\s*\}` (DOTALL): the
content up to the last `"` that is followed by optional whitespace and
`}`; greedy `.+` takes the rightmost such closing quote. -/
def greedyBody : List Char → Option (List Char)
  | [] => none
  | c :: cs =>
    match greedyBody cs with
    | some content => some (c :: content)
    | none =>
      if c = '"' ∧ (cs.dropWhile pyWsChar).head? = some '\x7d' then some []
      else none

/-- Attempt the greedy body pattern at the current position (the capture
must be nonempty, since the pattern uses `.+`). -/
def matchBodyGreedyAt (cs : List Char) : Option (List Char) :=
  if (String.toList "\"body\"").isPrefixOf cs then
    match (cs.drop 6).dropWhile pyWsChar with
    | ':' :: r2 =>
      match r2.dropWhile pyWsChar with
      | '"' :: r3 =>
        match greedyBody r3 with
        | some content => if content.isEmpty then none else some content
        | none => none
      | _ => none
    | _ => none
  else none

def searchBodyGreedy : List Char → Option (List Char)
  | [] => none
  | c :: cs =>
    match matchBodyGreedyAt (c :: cs) with
    | some g => some g
    | none => searchBodyGreedy cs

/-- The tail `\s*"*\s*\}` of the lazy body pattern matches at the current
position (the three starred classes are pairwise disjoint with each other
and with `}`, so maximal munch is exact). -/
def lazyTailHere (cs : List Char) : Bool :=
  let p1 := cs.dropWhile pyWsChar
  let p2 := p1.dropWhile (fun c => c = '"')
  let p3 := p2.dropWhile pyWsChar
  p3.head? = some '\x7d'

/-- The lazy capture `(.*?)` of `"body"\s*:\s*"*\s*(.*?)\s*"*\s*\}`
(DOTALL): the shortest content whose end position satisfies the tail. -/
def lazyCapture : List Char → Option (List Char)
  | [] => if lazyTailHere [] then some [] else none
  | c :: cs =>
    if lazyTailHere (c :: cs) then some []
    else (lazyCapture cs).map (fun l => c :: l)

/-- Attempt the lazy body pattern at the current position. -/
def matchBodyLazyAt (cs : List Char) : Option (List Char) :=
  if (String.toList "\"body\"").isPrefixOf cs then
    match (cs.drop 6).dropWhile pyWsChar with
    | ':' :: r2 =>
      let r3 := ((r2.dropWhile pyWsChar).dropWhile (fun c => c = '"')).dropWhile pyWsChar
      lazyCapture r3
    | _ => none
  else none

def searchBodyLazy : List Char → Option (List Char)
  | [] => none
  | c :: cs =>
    match matchBodyLazyAt (c :: cs) with
    | some g => some g
    | none => searchBodyLazy cs

/-- `re.sub(r'[{}"\\]', '', s)`: remove braces, quotes and backslashes. -/
def removeBadChars (cs : List Char) : List Char :=
  cs.filter (fun c => !(c = '\x7b' || c = '\x7d' || c = '"' || c = '\\'))

/-- Attempt `\b(title|body)\b\s*:\s*` at the current position given the
previous character; returns the length of the matched span. -/
def wordColonAt (prev : Option Char) (cs : List Char) : Option Nat :=
  let boundaryBefore := match prev with
    | none => true
    | some c => !isWordChar c
  let tryWord : List Char → Option Nat := fun w =>
    if w.isPrefixOf cs && boundaryBefore then
      let rest := cs.drop w.length
      let boundaryAfter := match rest.head? with
        | none => true
        | some c => !isWordChar c
      if boundaryAfter then
        match rest.dropWhile pyWsChar with
        | ':' :: r2 =>
          some (cs.length - (r2.dropWhile pyWsChar).length)
        | _ => none
      else none
    else none
  match tryWord (String.toList "title") with
  | some n => some n
  | none => tryWord (String.toList "body")

/-- `re.sub(r'\b(title|body)\b\s*:\s*', '', s)`: delete every
non-overlapping leftmost match; after a deletion, scanning resumes after
the deleted span, whose last character provides the boundary context. -/
def subWordColonAux : Nat → Option Char → List Char → List Char
  | 0, _, cs => cs
  | fuel + 1, prev, cs =>
    match cs with
    | [] => []
    | c :: rest =>
      match wordColonAt prev (c :: rest) with
      | some n =>
        subWordColonAux fuel ((c :: rest).take n).getLast? ((c :: rest).drop n)
      | none => c :: subWordColonAux fuel (some c) rest

def subWordColon (cs : List Char) : List Char :=
  subWordColonAux cs.length none cs

/-- `re.sub(pat ++ r'\s*', '', s)` for a literal `pat` (used for the code
fence patterns): delete each occurrence of the literal together with the
whitespace run following it. -/
def subLitWsAux (pat : List Char) : Nat → List Char → List Char
  | 0, cs => cs
  | fuel + 1, cs =>
    match cs with
    | [] => []
    | c :: rest =>
      if pat.isPrefixOf (c :: rest) ∧ ¬pat.isEmpty then
        subLitWsAux pat fuel (((c :: rest).drop pat.length).dropWhile pyWsChar)
      else c :: subLitWsAux pat fuel rest

def subLitWs (pat : String) (cs : List Char) : List Char :=
  subLitWsAux pat.toList cs.length cs

/-- Python `str.splitlines` for the line boundaries occurring here
(`\r\n`, `\n`, `\r`, vertical tab, form feed); no trailing empty line. -/
def pySplitlinesAux : List Char → List Char → List (List Char)
  | [], acc => if acc.isEmpty then [] else [acc.reverse]
  | '\r' :: '\n' :: rest, acc => acc.reverse :: pySplitlinesAux rest []
  | c :: rest, acc =>
    if c = '\n' || c = '\r' || c = '\x0b' || c = '\x0c' then
      acc.reverse :: pySplitlinesAux rest []
    else pySplitlinesAux rest (c :: acc)

def pySplitlines (cs : List Char) : List (List Char) :=
  pySplitlinesAux cs []

/-- `l.startswith(('{', '}', '"', '```'))`. -/
def startsAnyDelim (l : List Char) : Bool :=
  (String.toList "\x7b").isPrefixOf l || (String.toList "\x7d").isPrefixOf l
    || (String.toList "\"").isPrefixOf l
    || (String.toList "```").isPrefixOf l

/-- Step 5 of `_parse_llm_json` (the final fallback): title from the first
meaningful line, body from the raw text with fences stripped. -/
def fallbackStage (result_text : String) : Sug :=
  let rt := result_text.toList
  let lines := ((pySplitlines (dropTrailing pyWsChar (rt.dropWhile pyWsChar))).map
      (fun l => dropTrailing pyWsChar (l.dropWhile pyWsChar))).filter
    (fun l => !l.isEmpty && !startsAnyDelim l)
  let fallback_title := match lines with
    | [] => String.toList "Предложение по улучшению блога"
    | l :: _ => l.take 80
  let clean_body :=
    dropTrailing pyWsChar
      ((subLitWs "```" (subLitWs "```json" rt)).dropWhile pyWsChar)
  ⟨String.mk fallback_title, String.mk clean_body⟩

/-- The unescaping applied to the regex captures of steps 4 and 4a:
`.replace('\\"', '"').replace('\\n', '\n').strip()`. -/
def unescapeCapture (g : List Char) : String :=
  pyStrip (pyReplace (pyReplace (String.mk g) "\\\"" "\"") "\\n" "\n")

/-- Step 4c body cleanup: strip JSON artifacts from the text following the
title. -/
def clean4c (after_title : List Char) : String :=
  pyStripChars [' ', '\n', ',']
    (String.mk (subLitWs "```"
      (subLitWs "```json" (subWordColon (removeBadChars after_title)))))

/-- Step 4 of `_parse_llm_json` (regex extraction).  `some r` means the
branch returns (or raises) `r`; `none` means control falls through to
step 5.  When the extracted title is empty and no body was recovered,
step 4c calls `result_text.split(title, 1)` with an empty separator, which
raises `ValueError`. -/
def regexStage (result_text : String) : Option (Except PyErr Sug) :=
  let rt := result_text.toList
  match searchTitle rt with
  | none => none
  | some g =>
    let title := unescapeCapture g
    let body0 := match searchBodyGreedy rt with
      | some bg => unescapeCapture bg
      | none => ""
    let body1 := if body0 = "" then
        match searchBodyLazy rt with
        | some bg => pyStrip (pyStripChars ['"'] (pyStrip (String.mk bg)))
        | none => body0
      else body0
    if body1 = "" then
      if title = "" then some (.error .valueError)
      else
        let after_title := if containsSub title.toList rt then
            afterFirstLit title.toList rt
          else rt
        some (.ok ⟨title, clean4c after_title⟩)
    else if title = "" then none
    else some (.ok ⟨title, body1⟩)

/-- One strict-decoding stage (step 2 or step 3): `none` when `json.loads`
raises `JSONDecodeError` (caught, cascade continues); `some r` when it
succeeds and the branch returns `r` or raises out of the function. -/
def decodeStage (s : String) : Option (Except PyErr Sug) :=
  match jsonLoads s with
  | .error _ => none
  | .ok v => some (fromJson v)

/-- Embeds `_parse_llm_json`: fence extraction, strict decode, sanitize and
re-decode, regex extraction, final fallback. -/
def _parse_llm_json (result_text : String) : Except PyErr Sug :=
  let json_str := extractFence result_text
  match decodeStage (pyStrip json_str) with
  | some r => r
  | none =>
    match decodeStage (_sanitize_json_string (pyStrip json_str)) with
    | some r => r
    | none =>
      match regexStage result_text with
      | some r => r
      | none => .ok (fallbackStage result_text)

/-- A decoded JSON value that `_parse_llm_json` consumes without raising:
a top-level object whose `title` and `body` are absent or strings. -/
def fieldOk : Option PyJson → Bool
  | none => true
  | some (.str _) => true
  | some _ => false

def goodValB : PyJson → Bool
  | .obj members => fieldOk (objGet members "title")
      && fieldOk (objGet members "body")
  | _ => false

/-- The regex stage raises (the empty-separator `split` of step 4c). -/
def regexRaises (result_text : String) : Bool :=
  match regexStage result_text with
  | some (.error _) => true
  | _ => false

/-- The exact set of inputs on which `_parse_llm_json` raises, following
the control flow of the cascade: the strict decode the cascade accepts
(the direct decode, or the sanitized re-decode when the direct one fails
with `JSONDecodeError`) succeeds with an ill-shaped value — a non-object,
or an object with a present non-string `title`/`body` — (the
`AttributeError` from `.get`/`.strip`); or both decodes fail and the
regex stage raises (the step 4c `ValueError`).  On inputs where a decode
succeeds, the regex stage is never reached, so its behaviour is
irrelevant there. -/
def parseRaises (result_text : String) : Bool :=
  match jsonLoads (pyStrip (extractFence result_text)) with
  | .ok v => !goodValB v
  | .error _ =>
    match jsonLoads (_sanitize_json_string
        (pyStrip (extractFence result_text))) with
    | .ok v => !goodValB v
    | .error _ => regexRaises result_text

/-! ## Statement-side transformations used by claim C7 -/

/-- Apply a character map to a string (used to state case-invariance). -/
def mapStr (f : Char → Char) (s : String) : String :=
  String.mk (s.toList.map f)

/-- Remove the punctuation characters (those the coverage normalization
deletes: characters that are neither word characters nor whitespace after
lowercasing). -/
def stripPunctStr (s : String) : String :=
  String.mk (s.toList.filter (fun c => keepChar (toLowerChar c)))

/-! ## Helper lemmas about the similarity engine -/

lemma similarity_nonneg (a b : Finset String) : 0 ≤ _similarity a b := by
  unfold _similarity
  split
  · exact le_refl 0
  · positivity

lemma similarity_le_one (a b : Finset String) : _similarity a b ≤ 1 := by
  unfold _similarity
  split
  · exact zero_le_one
  · rename_i h
    push_neg at h
    obtain ⟨ha, hb⟩ := h
    have hub : (0 : ℚ) < ((a ∪ b).card : ℚ) := by
      have : 0 < (a ∪ b).card := by
        apply Finset.card_pos.mpr
        obtain ⟨x, hx⟩ := Finset.nonempty_iff_ne_empty.mpr ha
        exact ⟨x, Finset.mem_union_left _ hx⟩
      exact_mod_cast this
    rw [div_le_one hub]
    exact_mod_cast Finset.card_le_card (Finset.inter_subset_union)

lemma similarity_self {a : Finset String} (h : a ≠ ∅) :
    _similarity a a = 1 := by
  unfold _similarity
  rw [if_neg (by simp [h])]
  rw [Finset.inter_self, Finset.union_self]
  apply div_self
  have : 0 < a.card := Finset.card_pos.mpr (Finset.nonempty_iff_ne_empty.mpr h)
  exact_mod_cast this.ne'

lemma similarity_empty {a b : Finset String} (h : a = ∅ ∨ b = ∅) :
    _similarity a b = 0 := by
  unfold _similarity
  rw [if_pos h]

lemma similarity_comm (a b : Finset String) :
    _similarity a b = _similarity b a := by
  unfold _similarity
  by_cases h : a = ∅ ∨ b = ∅
  · rw [if_pos h, if_pos h.symm]
  · rw [if_neg h, if_neg (fun hc => h hc.symm), Finset.inter_comm,
      Finset.union_comm]

lemma trigrams_nonempty_of_long_word {s : String}
    (h : ∃ w ∈ wordsAux (cleanChars s) [], 3 ≤ w.length) :
    _text_to_trigrams s ≠ ∅ := by
  obtain ⟨w, hw, hlen⟩ := h
  apply Finset.ne_empty_of_mem (a := String.mk (w.take 3))
  unfold _text_to_trigrams
  rw [List.mem_toFinset, List.mem_flatten]
  refine ⟨wordTrigrams w, List.mem_map_of_mem _ hw, ?_⟩
  unfold wordTrigrams
  rw [if_neg (by omega)]
  have h0 : 0 ∈ List.range (w.length - 2) := List.mem_range.mpr (by omega)
  simpa using List.mem_map_of_mem (fun i => String.mk ((w.drop i).take 3)) h0

lemma trigrams_eq_of_clean_eq {a a' : String}
    (h : cleanChars a = cleanChars a') :
    _text_to_trigrams a = _text_to_trigrams a' := by
  unfold _text_to_trigrams
  rw [h]

lemma map_lower_congr (f : Char → Char)
    (hf : ∀ c, toLowerChar (f c) = toLowerChar c) (l : List Char) :
    (l.map f).map toLowerChar = l.map toLowerChar := by
  rw [List.map_map]
  exact List.map_congr_left (fun c _ => hf c)

lemma filter_map_lower (l : List Char) :
    ((l.filter (fun c => keepChar (toLowerChar c))).map toLowerChar).filter
        keepChar
      = (l.map toLowerChar).filter keepChar := by
  induction l with
  | nil => rfl
  | cons c cs ih =>
    by_cases h : keepChar (toLowerChar c)
    · simp only [List.filter_cons, List.map_cons, h, if_true, ih]
    · simp only [List.filter_cons, List.map_cons, h, Bool.false_eq_true,
        if_false, ih]

/-- C6: trigram-Jaccard similarity is a value in `[0, 1]`; it is `1` on any
text that contains a word of length at least 3 after normalization; it is
`0` against the empty string, and `0` whenever either trigram set is
empty. -/
theorem C6_similarity_bounds_identity_empty :
    (∀ a b : String, 0 ≤ simText a b ∧ simText a b ≤ 1) ∧
    (∀ a : String, (∃ w ∈ wordsAux (cleanChars a) [], 3 ≤ w.length) →
      simText a a = 1) ∧
    (∀ a : String, simText a "" = 0) ∧
    (∀ a b : String,
      _text_to_trigrams a = ∅ ∨ _text_to_trigrams b = ∅ → simText a b = 0) := by
  refine ⟨fun a b => ⟨similarity_nonneg _ _, similarity_le_one _ _⟩,
    fun a h => similarity_self (trigrams_nonempty_of_long_word h),
    fun a => similarity_empty (Or.inr (by decide)),
    fun a b h => similarity_empty h⟩

theorem C6_similarity_witness :
    (∃ w ∈ wordsAux (cleanChars "hello") [], 3 ≤ w.length) ∧
    simText "hello" "hello" = 1 ∧
    (_text_to_trigrams "ab" = ∅ ∨ _text_to_trigrams "xy" = ∅) ∧
    simText "ab" "xy" = 0 := by
  have h1 : ∃ w ∈ wordsAux (cleanChars "hello") [], 3 ≤ w.length := by decide
  have h2 : _text_to_trigrams "ab" = ∅ ∨ _text_to_trigrams "xy" = ∅ :=
    Or.inl (by decide)
  exact ⟨h1, C6_similarity_bounds_identity_empty.2.1 "hello" h1, h2,
    C6_similarity_bounds_identity_empty.2.2.2 "ab" "xy" h2⟩

/-- C7: similarity is symmetric, and it depends only on the normalized
(lowercased, punctuation-stripped) text: texts with equal normalizations
are interchangeable, changing letter case never changes the score, and
inserting or removing punctuation never changes the score. -/
theorem C7_similarity_symm_normalization :
    (∀ a b : String, simText a b = simText b a) ∧
    (∀ a a' b : String, cleanChars a = cleanChars a' →
      simText a b = simText a' b) ∧
    (∀ f : Char → Char, (∀ c, toLowerChar (f c) = toLowerChar c) →
      ∀ a b : String, simText (mapStr f a) b = simText a b) ∧
    (∀ a b : String, simText (stripPunctStr a) b = simText a b) := by
  have key : ∀ a a' b : String, cleanChars a = cleanChars a' →
      simText a b = simText a' b := by
    intro a a' b h
    unfold simText
    rw [trigrams_eq_of_clean_eq h]
  refine ⟨fun a b => similarity_comm _ _, key, ?_, ?_⟩
  · intro f hf a b
    apply key
    show ((a.toList.map f).map toLowerChar).filter keepChar
      = (a.toList.map toLowerChar).filter keepChar
    rw [map_lower_congr f hf]
  · intro a b
    apply key
    exact filter_map_lower a.toList

/-! ## Helper lemmas for topic selection -/

lemma find?_eq_some_split {α : Type} (p : α → Bool) :
    ∀ (l : List α) (a : α), l.find? p = some a →
      p a = true ∧ ∃ l1 l2, l = l1 ++ a :: l2 ∧ ∀ b ∈ l1, p b = false := by
  intro l
  induction l with
  | nil => intro a h; simp [List.find?] at h
  | cons x xs ih =>
    intro a h
    by_cases hx : p x
    · rw [List.find?_cons_of_pos _ hx] at h
      cases h
      exact ⟨hx, [], xs, rfl, by simp⟩
    · rw [List.find?_cons_of_neg _ hx] at h
      obtain ⟨hp, l1, l2, hl, hall⟩ := ih a h
      refine ⟨hp, x :: l1, l2, by rw [hl]; rfl, ?_⟩
      intro b hb
      rcases List.mem_cons.mp hb with rfl | hb1
      · exact Bool.eq_false_iff.mpr hx
      · exact hall b hb1

lemma covered_nil (t : Topic) (w n : ℚ) :
    _topic_is_covered t [] w n = false := by
  unfold _topic_is_covered
  simp

/-- C3: `_pick_topic` scans the roster in order, skipping excluded ids and
covered topics; it returns `none` exactly when every roster entry is
skipped or covered, a returned topic is a roster entry that is neither in
the exclusion set nor covered and is preceded only by skipped-or-covered
entries, and with an empty corpus and empty exclusion set it returns the
first roster entry. -/
theorem C3_pick_topic_contract :
    (∀ ds skip, _pick_topic ds skip = none ↔
      ∀ t ∈ TOPIC_ROSTER, t.id ∈ skip ∨
        _topic_is_covered t ds (15/100) (25/100) = true) ∧
    (∀ ds skip t, _pick_topic ds skip = some t →
      t ∈ TOPIC_ROSTER ∧ t.id ∉ skip ∧
      _topic_is_covered t ds (15/100) (25/100) = false ∧
      ∃ l1 l2, TOPIC_ROSTER = l1 ++ t :: l2 ∧
        ∀ u ∈ l1, u.id ∈ skip ∨
          _topic_is_covered u ds (15/100) (25/100) = true) ∧
    _pick_topic [] [] = TOPIC_ROSTER.head? := by
  refine ⟨?_, ?_, ?_⟩
  · intro ds skip
    unfold _pick_topic
    rw [List.find?_eq_none]
    constructor
    · intro h t ht
      have := h t ht
      simp only [Bool.and_eq_true, Bool.not_eq_true', not_and, Bool.not_eq_false] at this
      by_cases hc : skip.contains t.id
      · exact Or.inl (by simpa using hc)
      · exact Or.inr (this (by simpa using hc))
    · intro h t ht
      simp only [Bool.and_eq_true, Bool.not_eq_true', not_and, Bool.not_eq_false]
      intro hc
      rcases h t ht with hm | hcov
      · exact absurd (by simpa using hm) (by simpa using hc)
      · exact hcov
  · intro ds skip t h
    obtain ⟨hp, l1, l2, hl, hall⟩ := find?_eq_some_split _ _ _ h
    simp only [Bool.and_eq_true, Bool.not_eq_true'] at hp
    refine ⟨hl ▸ List.mem_append_right l1 (List.mem_cons_self t l2),
      fun hm => by simp [List.elem_iff, hm] at hp, hp.2, l1, l2, hl, ?_⟩
    intro u hu
    have := hall u hu
    simp only [Bool.and_eq_true, Bool.not_eq_true'] at this
    by_cases hc : u.id ∈ skip
    · exact Or.inl hc
    · refine Or.inr ?_
      rcases Bool.and_eq_false_iff.mp this with h1 | h2
      · exact absurd (by simpa [List.elem_iff] using h1) hc
      · simpa using h2
  · have hcov : ∀ t, _topic_is_covered t [] (15/100) (25/100) = false :=
      fun t => covered_nil t _ _
    unfold _pick_topic TOPIC_ROSTER
    rw [List.find?_cons_of_pos _ (by simp [hcov])]
    rfl

theorem C3_pick_topic_witness :
    _pick_topic [] [] = some topicSeo ∧ topicSeo ∈ TOPIC_ROSTER ∧
    topicSeo.id ∉ ([] : List String) ∧
    _topic_is_covered topicSeo [] (15/100) (25/100) = false := by
  have h : _pick_topic [] [] = some topicSeo :=
    C3_pick_topic_contract.2.2.trans rfl
  obtain ⟨h1, h2, h3, _⟩ := C3_pick_topic_contract.2.1 [] [] topicSeo h
  exact ⟨h, h1, h2, h3⟩

/-- C4: `_topic_is_covered` is true exactly when some post reaches its
label-dependent threshold (`0.15` with the wontfix label, `0.25` without),
and a post of similarity `s` with `0.15 ≤ s < 0.25` covers the topic when
it carries the wontfix label but not when it is unlabeled. -/
theorem C4_coverage_label_thresholds :
    (∀ topic ds, _topic_is_covered topic ds (15/100) (25/100) = true ↔
      ∃ d ∈ ds, labelThreshold (15/100) (25/100) d ≤ coverSim topic d) ∧
    (∀ topic t b num,
      15/100 ≤ coverSim topic ⟨num, t, b, []⟩ →
      coverSim topic ⟨num, t, b, []⟩ < 25/100 →
      _topic_is_covered topic [⟨num, t, b, ["wontfix"]⟩]
          (15/100) (25/100) = true ∧
      _topic_is_covered topic [⟨num, t, b, []⟩] (15/100) (25/100) = false) := by
  have hiff : ∀ topic ds,
      _topic_is_covered topic ds (15/100) (25/100) = true ↔
      ∃ d ∈ ds, labelThreshold (15/100) (25/100) d ≤ coverSim topic d := by
    intro topic ds
    unfold _topic_is_covered
    by_cases h : _text_to_trigrams (fingerprintText topic) = ∅
    · rw [if_pos h]
      simp only [Bool.false_eq_true, false_iff]
      rintro ⟨d, hd, hle⟩
      have h0 : coverSim topic d = 0 :=
        similarity_empty (Or.inl h)
      rw [h0] at hle
      unfold labelThreshold at hle
      split at hle <;> norm_num at hle
    · rw [if_neg h, List.any_eq_true]
      constructor
      · rintro ⟨d, hd, hp⟩
        exact ⟨d, hd, by simpa [labelThreshold, coverSim] using hp⟩
      · rintro ⟨d, hd, hp⟩
        exact ⟨d, hd, by simpa [labelThreshold, coverSim] using hp⟩
  refine ⟨hiff, ?_⟩
  intro topic t b num h1 h2
  have hsame : coverSim topic ⟨num, t, b, ["wontfix"]⟩
      = coverSim topic ⟨num, t, b, []⟩ := rfl
  constructor
  · rw [hiff]
    refine ⟨⟨num, t, b, ["wontfix"]⟩, List.mem_singleton_self _, ?_⟩
    rw [hsame]
    have : labelThreshold (15/100) (25/100) ⟨num, t, b, ["wontfix"]⟩
        = 15/100 := by
      unfold labelThreshold
      rw [if_pos (by unfold _has_label; simp)]
    rw [this]
    exact h1
  · rw [Bool.eq_false_iff]
    intro hcov
    rw [hiff] at hcov
    obtain ⟨d, hd, hle⟩ := hcov
    rw [List.mem_singleton] at hd
    subst hd
    have : labelThreshold (15/100) (25/100) ⟨num, t, b, []⟩ = 25/100 := by
      unfold labelThreshold
      rw [if_neg (by unfold _has_label; simp)]
    rw [this] at hle
    exact absurd hle (not_le.mpr h2)

theorem C4_coverage_witness :
    15/100 ≤ coverSim ⟨"t", "", "", ["abcdef"]⟩ ⟨1, "abcd xyzw", "qrst uvwx", []⟩ ∧
    coverSim ⟨"t", "", "", ["abcdef"]⟩ ⟨1, "abcd xyzw", "qrst uvwx", []⟩ < 25/100 ∧
    _topic_is_covered ⟨"t", "", "", ["abcdef"]⟩
      [⟨1, "abcd xyzw", "qrst uvwx", ["wontfix"]⟩] (15/100) (25/100) = true ∧
    _topic_is_covered ⟨"t", "", "", ["abcdef"]⟩
      [⟨1, "abcd xyzw", "qrst uvwx", []⟩] (15/100) (25/100) = false := by
  have hval : coverSim ⟨"t", "", "", ["abcdef"]⟩
      ⟨1, "abcd xyzw", "qrst uvwx", []⟩ = 2 / 10 := by
    unfold coverSim _similarity
    rw [if_neg (by decide)]
    rw [show (_text_to_trigrams
        (fingerprintText ⟨"t", "", "", ["abcdef"]⟩) ∩
        _text_to_trigrams
          (discText ⟨1, "abcd xyzw", "qrst uvwx", []⟩)).card = 2 by decide]
    rw [show (_text_to_trigrams
        (fingerprintText ⟨"t", "", "", ["abcdef"]⟩) ∪
        _text_to_trigrams
          (discText ⟨1, "abcd xyzw", "qrst uvwx", []⟩)).card = 10 by decide]
    norm_num
  have h1 : 15/100 ≤ coverSim ⟨"t", "", "", ["abcdef"]⟩
      ⟨1, "abcd xyzw", "qrst uvwx", []⟩ := by rw [hval]; norm_num
  have h2 : coverSim ⟨"t", "", "", ["abcdef"]⟩
      ⟨1, "abcd xyzw", "qrst uvwx", []⟩ < 25/100 := by rw [hval]; norm_num
  obtain ⟨hc1, hc2⟩ :=
    C4_coverage_label_thresholds.2 ⟨"t", "", "", ["abcdef"]⟩
      "abcd xyzw" "qrst uvwx" 1 h1 h2
  exact ⟨h1, h2, hc1, hc2⟩

/-! ## Helper lemmas for the duplicate guard -/

lemma string_data_append (s t : String) : (s ++ t).data = s.data ++ t.data :=
  rfl

lemma dupLoop_cons (st : Finset String) (w n : ℚ) (d : Discussion)
    (rest : List Discussion) :
    dupLoop st w n (d :: rest) =
      (if (if _has_label d "wontfix" then w else n)
          ≤ _similarity st (_text_to_trigrams (discText d)) then
        (true, dupReason d (_similarity st (_text_to_trigrams (discText d)))
          (if _has_label d "wontfix" then w else n) (_has_label d "wontfix"))
      else dupLoop st w n rest) := rfl

lemma dupLoop_true_iff (st : Finset String) (w n : ℚ) :
    ∀ ds : List Discussion, (dupLoop st w n ds).1 = true ↔
      ∃ d ∈ ds, (if _has_label d "wontfix" then w else n)
        ≤ _similarity st (_text_to_trigrams (discText d)) := by
  intro ds
  induction ds with
  | nil => simp [dupLoop]
  | cons d rest ih =>
    rw [dupLoop_cons]
    by_cases h : (if _has_label d "wontfix" then w else n)
        ≤ _similarity st (_text_to_trigrams (discText d))
    · rw [if_pos h]
      simp [h]
    · rw [if_neg h]
      simp only [List.mem_cons]
      constructor
      · intro hl
        obtain ⟨d', hd', hle⟩ := ih.mp hl
        exact ⟨d', Or.inr hd', hle⟩
      · rintro ⟨d', hd' | hd', hle⟩
        · subst hd'; exact absurd hle h
        · exact ih.mpr ⟨d', hd', hle⟩

lemma dupLoop_no_match (st : Finset String) (w n : ℚ) :
    ∀ ds : List Discussion,
      (∀ d ∈ ds, ¬ (if _has_label d "wontfix" then w else n)
        ≤ _similarity st (_text_to_trigrams (discText d))) →
      dupLoop st w n ds = (false, "") := by
  intro ds
  induction ds with
  | nil => intro _; rfl
  | cons d rest ih =>
    intro h
    rw [dupLoop_cons, if_neg (h d (List.mem_cons_self d rest))]
    exact ih (fun d' hd' => h d' (List.mem_cons_of_mem d hd'))

lemma dupLoop_first_match (st : Finset String) (w n : ℚ) (d : Discussion)
    (l2 : List Discussion) :
    ∀ l1 : List Discussion,
      (∀ d' ∈ l1, ¬ (if _has_label d' "wontfix" then w else n)
        ≤ _similarity st (_text_to_trigrams (discText d'))) →
      (if _has_label d "wontfix" then w else n)
        ≤ _similarity st (_text_to_trigrams (discText d)) →
      dupLoop st w n (l1 ++ d :: l2) =
        (true, dupReason d (_similarity st (_text_to_trigrams (discText d)))
          (if _has_label d "wontfix" then w else n) (_has_label d "wontfix")) := by
  intro l1
  induction l1 with
  | nil =>
    intro _ h2
    rw [List.nil_append, dupLoop_cons, if_pos h2]
  | cons d' l1' ih =>
    intro h1 h2
    rw [List.cons_append, dupLoop_cons,
      if_neg (h1 d' (List.mem_cons_self d' l1'))]
    exact ih (fun u hu => h1 u (List.mem_cons_of_mem d' hu)) h2

lemma dup_threshold_pos (d : Discussion) :
    0 < labelThreshold (20/100) (35/100) d := by
  unfold labelThreshold
  split <;> norm_num

/-- C5: `_is_duplicate` returns `(true, reason)` at the first post whose
similarity to `title + " " + body` reaches its label-dependent threshold
(`0.20` wontfix, `0.35` otherwise), with the reason naming that post's
number, the similarity and the threshold; it returns `(false, "")` when no
post reaches its threshold; and a suggestion worded identically to a post
in the list is flagged as a duplicate. -/
theorem C5_duplicate_guard :
    (∀ title body ds,
      (_is_duplicate title body ds (20/100) (35/100)).1 = true ↔
        ∃ d ∈ ds, labelThreshold (20/100) (35/100) d ≤ dupSim title body d) ∧
    (∀ title body l1 d l2,
      (∀ d' ∈ l1,
        dupSim title body d' < labelThreshold (20/100) (35/100) d') →
      labelThreshold (20/100) (35/100) d ≤ dupSim title body d →
      _is_duplicate title body (l1 ++ d :: l2) (20/100) (35/100) =
        (true, dupReason d (dupSim title body d)
          (labelThreshold (20/100) (35/100) d) (_has_label d "wontfix")) ∧
      ∃ pre post, (dupReason d (dupSim title body d)
          (labelThreshold (20/100) (35/100) d)
          (_has_label d "wontfix")).data
        = pre ++ (toString d.number).data ++ post) ∧
    (∀ title body ds,
      (∀ d ∈ ds, dupSim title body d < labelThreshold (20/100) (35/100) d) →
      _is_duplicate title body ds (20/100) (35/100) = (false, "")) ∧
    (∀ title body ds d, d ∈ ds → d.title = title → d.body = body →
      _text_to_trigrams (title ++ " " ++ body) ≠ ∅ →
      (_is_duplicate title body ds (20/100) (35/100)).1 = true) := by
  have hiff : ∀ title body ds,
      (_is_duplicate title body ds (20/100) (35/100)).1 = true ↔
        ∃ d ∈ ds, labelThreshold (20/100) (35/100) d ≤ dupSim title body d := by
    intro title body ds
    unfold _is_duplicate
    by_cases hst : _text_to_trigrams (title ++ " " ++ body) = ∅
    · rw [if_pos hst]
      simp only [Bool.false_eq_true, false_iff]
      rintro ⟨d, hd, hle⟩
      have h0 : dupSim title body d = 0 := by
        unfold dupSim
        exact similarity_empty (Or.inl hst)
      rw [h0] at hle
      exact absurd hle (not_le.mpr (dup_threshold_pos d))
    · rw [if_neg hst]
      exact dupLoop_true_iff _ _ _ ds
  refine ⟨hiff, ?_, ?_, ?_⟩
  · intro title body l1 d l2 h1 h2
    have hst : _text_to_trigrams (title ++ " " ++ body) ≠ ∅ := by
      intro hst
      have h0 : dupSim title body d = 0 := by
        unfold dupSim
        exact similarity_empty (Or.inl hst)
      rw [h0] at h2
      exact absurd h2 (not_le.mpr (dup_threshold_pos d))
    constructor
    · unfold _is_duplicate
      rw [if_neg hst]
      exact dupLoop_first_match _ _ _ d l2 l1
        (fun d' hd' => not_le.mpr (h1 d' hd')) h2
    · refine ⟨(String.mk (String.toList "Similar to #")).data,
        (" \x27" ++ String.mk (d.title.toList.take 60)
          ++ "\x27 (similarity=" ++ fmt2 (dupSim title body d)
          ++ ", threshold="
          ++ pyFloatStr (labelThreshold (20/100) (35/100) d)
          ++ ", "
          ++ (if _has_label d "wontfix" then "wontfix" else "existing")
          ++ ")").data, ?_⟩
      simp [dupReason, string_data_append, List.append_assoc]
  · intro title body ds h
    unfold _is_duplicate
    by_cases hst : _text_to_trigrams (title ++ " " ++ body) = ∅
    · rw [if_pos hst]
    · rw [if_neg hst]
      exact dupLoop_no_match _ _ _ ds (fun d hd => not_le.mpr (h d hd))
  · intro title body ds d hd ht hb hst
    rw [hiff]
    refine ⟨d, hd, ?_⟩
    have hsim : dupSim title body d = 1 := by
      unfold dupSim discText
      rw [ht, hb]
      exact similarity_self hst
    rw [hsim]
    unfold labelThreshold
    split <;> norm_num

theorem C5_duplicate_guard_witness :
    labelThreshold (20/100) (35/100) ⟨7, "hello world abc", "", []⟩
      ≤ dupSim "hello world abc" "" ⟨7, "hello world abc", "", []⟩ ∧
    _is_duplicate "hello world abc" "" [⟨7, "hello world abc", "", []⟩]
        (20/100) (35/100) =
      (true, dupReason ⟨7, "hello world abc", "", []⟩
        (dupSim "hello world abc" "" ⟨7, "hello world abc", "", []⟩)
        (labelThreshold (20/100) (35/100) ⟨7, "hello world abc", "", []⟩)
        (_has_label ⟨7, "hello world abc", "", []⟩ "wontfix")) ∧
    (_is_duplicate "hello world abc" "" [⟨7, "hello world abc", "", []⟩]
        (20/100) (35/100)).1 = true := by
  have hst : _text_to_trigrams ("hello world abc" ++ " " ++ "") ≠ ∅ := by
    decide
  have hsim : dupSim "hello world abc" "" ⟨7, "hello world abc", "", []⟩
      = 1 := by
    unfold dupSim discText
    exact similarity_self hst
  have h2 : labelThreshold (20/100) (35/100) ⟨7, "hello world abc", "", []⟩
      ≤ dupSim "hello world abc" "" ⟨7, "hello world abc", "", []⟩ := by
    rw [hsim]
    unfold labelThreshold
    split <;> norm_num
  obtain ⟨heq, _⟩ := C5_duplicate_guard.2.1 "hello world abc" "" []
    ⟨7, "hello world abc", "", []⟩ [] (by simp) h2
  refine ⟨h2, by simpa using heq, ?_⟩
  exact C5_duplicate_guard.2.2.2 "hello world abc" ""
    [⟨7, "hello world abc", "", []⟩] ⟨7, "hello world abc", "", []⟩
    (List.mem_singleton_self _) rfl rfl hst

/-! ## Helper lemmas for the inner topic-selection loop -/

lemma filter_length_mono {α : Type} (p q : α → Bool)
    (himp : ∀ a, q a = true → p a = true) :
    ∀ l : List α, (l.filter q).length ≤ (l.filter p).length := by
  intro l
  induction l with
  | nil => exact le_refl 0
  | cons x xs ih =>
    by_cases hqx : q x = true
    · rw [List.filter_cons_of_pos hqx, List.filter_cons_of_pos (himp x hqx)]
      exact Nat.succ_le_succ ih
    · rw [List.filter_cons_of_neg (by simpa using hqx)]
      by_cases hpx : p x = true
      · rw [List.filter_cons_of_pos hpx]
        exact Nat.le_succ_of_le ih
      · rw [List.filter_cons_of_neg (by simpa using hpx)]
        exact ih

lemma filter_length_lt {α : Type} (p q : α → Bool)
    (himp : ∀ a, q a = true → p a = true) (t : α)
    (hp : p t = true) (hq : q t = false) :
    ∀ l : List α, t ∈ l → (l.filter q).length < (l.filter p).length := by
  intro l
  induction l with
  | nil => intro h; cases h
  | cons x xs ih =>
    intro htl
    rcases List.mem_cons.mp htl with rfl | hmem
    · rw [List.filter_cons_of_pos hp, List.filter_cons_of_neg (by simp [hq])]
      exact Nat.lt_succ_of_le (filter_length_mono p q himp xs)
    · by_cases hqx : q x = true
      · rw [List.filter_cons_of_pos hqx, List.filter_cons_of_pos (himp x hqx)]
        exact Nat.succ_lt_succ (ih hmem)
      · rw [List.filter_cons_of_neg (by simpa using hqx)]
        by_cases hpx : p x = true
        · rw [List.filter_cons_of_pos hpx]
          exact Nat.lt_succ_of_lt (ih hmem)
        · rw [List.filter_cons_of_neg (by simpa using hpx)]
          exact ih hmem

lemma pick_some_facts (ds : List Discussion) (skip : List String) (t : Topic)
    (h : _pick_topic ds skip = some t) :
    t ∈ TOPIC_ROSTER ∧ skip.contains t.id = false := by
  obtain ⟨hp, l1, l2, hl, _⟩ := find?_eq_some_split _ _ _ h
  simp only [Bool.and_eq_true, Bool.not_eq_true'] at hp
  exact ⟨hl ▸ List.mem_append_right l1 (List.mem_cons_self t l2), hp.1⟩

lemma innerLoop_isSome :
    ∀ (fuel : Nat) (skip : List String) (ds : List Discussion)
      (llm : String → Sug),
      (TOPIC_ROSTER.filter (fun u => !(skip.contains u.id))).length ≤ fuel →
      (innerLoop ds llm fuel skip).isSome = true := by
  intro fuel
  induction fuel with
  | zero =>
    intro skip ds llm h
    have hnil : TOPIC_ROSTER.filter (fun u => !(skip.contains u.id)) = [] :=
      List.length_eq_zero.mp (Nat.le_zero.mp h)
    have hpick : _pick_topic ds skip = none := by
      unfold _pick_topic
      rw [List.find?_eq_none]
      intro t ht hcontra
      simp only [Bool.and_eq_true] at hcontra
      have : t ∈ TOPIC_ROSTER.filter (fun u => !(skip.contains u.id)) :=
        List.mem_filter.mpr ⟨ht, hcontra.1⟩
      rw [hnil] at this
      cases this
    rw [innerLoop, hpick]
    rfl
  | succ fuel ih =>
    intro skip ds llm h
    cases hpick : _pick_topic ds skip with
    | none => rw [innerLoop, hpick]; rfl
    | some t =>
      obtain ⟨ht, hc⟩ := pick_some_facts ds skip t hpick
      have hdec := filter_length_lt
        (fun u => !(skip.contains u.id))
        (fun u => !((t.id :: skip).contains u.id))
        (by
          intro u hu
          simp only [Bool.not_eq_true', List.contains_cons,
            Bool.or_eq_false_iff] at hu ⊢
          exact hu.2)
        t (by simpa using hc)
        (by simp [List.contains_cons]) TOPIC_ROSTER ht
      have hle : (TOPIC_ROSTER.filter
          (fun u => !((t.id :: skip).contains u.id))).length ≤ fuel := by
        omega
      rw [innerLoop, hpick]
      dsimp only
      by_cases h1 : ((llm t.id).title = "" && (llm t.id).body = "") = true
      · rw [if_pos h1]
        exact ih (t.id :: skip) ds llm hle
      · rw [if_neg h1]
        by_cases h2 : (_is_duplicate (llm t.id).title (llm t.id).body ds
            (20/100) (35/100)).1 = true
        · rw [if_pos h2]
          exact ih (t.id :: skip) ds llm hle
        · rw [if_neg h2]
          rfl

/-- C10: within one pipeline attempt, the topic-selection while-loop
terminates: every non-exiting iteration adds the freshly selected topic id
(never one already skipped) to `skip_ids`, so a fuel budget of
`TOPIC_ROSTER.length` non-exiting iterations always suffices for the loop
to reach an exit. -/
theorem C10_inner_loop_terminates :
    ∀ (ds : List Discussion) (llm : String → Sug) (skip : List String),
      (innerLoop ds llm TOPIC_ROSTER.length skip).isSome = true := by
  intro ds llm skip
  exact innerLoop_isSome TOPIC_ROSTER.length skip ds llm
    (List.length_filter_le _ _)

/-! ## Helper lemmas for the retry loops -/

lemma retryGo_succ (op : Nat → Except String String) (base maxR rem att : Nat)
    (le : Option String) :
    retryGo op base maxR (rem + 1) att le =
      match op att with
      | .ok res => ([], .ok res)
      | .error e =>
        let rest := retryGo op base maxR rem (att + 1) (some e)
        if rem = 0 then rest else (base * att :: rest.1, rest.2) := rfl

lemma retriesErrMsg_three (e : String) :
    retriesErrMsg 3 (some e) = "Error after 3 retries: " ++ e := by
  show "Error after " ++ toString 3 ++ " retries: " ++ e = _
  rw [show "Error after " ++ toString (3 : Nat) ++ " retries: "
      = "Error after 3 retries: " from by decide]

lemma retry_all_fail (op : Nat → Except String String) (base : Nat)
    (e1 e2 e3 : String) (h1 : op 1 = .error e1) (h2 : op 2 = .error e2)
    (h3 : op 3 = .error e3) :
    withRetry op 3 base
      = ([base * 1, base * 2], .ok ("Error after 3 retries: " ++ e3)) := by
  have s3 : retryGo op base 3 3 1 none =
      (base * 1 :: (retryGo op base 3 2 2 (some e1)).1,
       (retryGo op base 3 2 2 (some e1)).2) := by
    show retryGo op base 3 (2 + 1) 1 none = _
    rw [retryGo_succ, h1]
    norm_num
  have s2 : retryGo op base 3 2 2 (some e1) =
      (base * 2 :: (retryGo op base 3 1 3 (some e2)).1,
       (retryGo op base 3 1 3 (some e2)).2) := by
    show retryGo op base 3 (1 + 1) 2 (some e1) = _
    rw [retryGo_succ, h2]
    norm_num
  have s1 : retryGo op base 3 1 3 (some e2)
      = ([], .ok (retriesErrMsg 3 (some e3))) := by
    show retryGo op base 3 (0 + 1) 3 (some e2) = _
    rw [retryGo_succ, h3]
    simp [retryGo]
  show retryGo op base 3 3 1 none = _
  rw [s3, s2, s1, retriesErrMsg_three]

lemma retry_fail_fail_ok (op : Nat → Except String String) (base : Nat)
    (e1 e2 r : String) (h1 : op 1 = .error e1) (h2 : op 2 = .error e2)
    (h3 : op 3 = .ok r) :
    withRetry op 3 base = ([base * 1, base * 2], .ok r) := by
  have s3 : retryGo op base 3 3 1 none =
      (base * 1 :: (retryGo op base 3 2 2 (some e1)).1,
       (retryGo op base 3 2 2 (some e1)).2) := by
    show retryGo op base 3 (2 + 1) 1 none = _
    rw [retryGo_succ, h1]
    norm_num
  have s2 : retryGo op base 3 2 2 (some e1) =
      (base * 2 :: (retryGo op base 3 1 3 (some e2)).1,
       (retryGo op base 3 1 3 (some e2)).2) := by
    show retryGo op base 3 (1 + 1) 2 (some e1) = _
    rw [retryGo_succ, h2]
    norm_num
  have s1 : retryGo op base 3 1 3 (some e2) = ([], .ok r) := by
    show retryGo op base 3 (0 + 1) 3 (some e2) = _
    rw [retryGo_succ, h3]
  show retryGo op base 3 3 1 none = _
  rw [s3, s2, s1]

/-- C8 counterexample: with an operation failing on every attempt, the
retry loop of `run_once` returns normally with an error-message string —
it does not re-raise the last error to its caller. -/
theorem C8_retry_counterexample :
    (run_once_retry (fun _ => Except.error "boom")).2
      = Except.ok "Error after 3 retries: boom" ∧
    (run_once_retry (fun _ => Except.error "boom")).2
      ≠ Except.error "boom" := by
  constructor
  · have := retry_all_fail (fun _ => Except.error "boom") 15
      "boom" "boom" "boom" rfl rfl rfl
    rw [show run_once_retry (fun _ => Except.error "boom")
        = withRetry (fun _ => Except.error "boom") 3 15 from rfl, this]
    rfl
  · have := retry_all_fail (fun _ => Except.error "boom") 15
      "boom" "boom" "boom" rfl rfl rfl
    rw [show run_once_retry (fun _ => Except.error "boom")
        = withRetry (fun _ => Except.error "boom") 3 15 from rfl, this]
    simp

/-- C8 (amended): when the wrapped operation fails on all three attempts,
the retry loops of `run_once` and `run_assessment` do not re-raise; they
return normally with the string
`"Error after 3 retries: " ++ <last error>`, sleeping `15 * 1` and
`15 * 2` seconds between attempts. -/
theorem C8_retry_exhaustion_returns_string :
    ∀ (op : Nat → Except String String) (e1 e2 e3 : String),
      op 1 = .error e1 → op 2 = .error e2 → op 3 = .error e3 →
      run_once_retry op
        = ([15, 30], .ok ("Error after 3 retries: " ++ e3)) ∧
      run_assessment_retry op
        = ([15, 30], .ok ("Error after 3 retries: " ++ e3)) := by
  intro op e1 e2 e3 h1 h2 h3
  have key := retry_all_fail op 15 e1 e2 e3 h1 h2 h3
  norm_num at key
  exact ⟨key, key⟩

theorem C8_retry_exhaustion_witness :
    run_once_retry (fun _ => Except.error "boom")
      = ([15, 30], .ok ("Error after 3 retries: " ++ "boom")) ∧
    run_assessment_retry (fun _ => Except.error "boom")
      = ([15, 30], .ok ("Error after 3 retries: " ++ "boom")) :=
  C8_retry_exhaustion_returns_string (fun _ => Except.error "boom")
    "boom" "boom" "boom" rfl rfl rfl

/-- C9: an operation that fails on attempts 1 and 2 and succeeds on
attempt 3 makes the retry loop return the success result, sleeping only
between failed attempts with linear backoff `base * attempt` (for
`run_once`, `15 * 1` then `15 * 2` seconds) and never after the final,
successful attempt. -/
theorem C9_retry_success_linear_backoff :
    ∀ (op : Nat → Except String String) (e1 e2 r : String),
      op 1 = .error e1 → op 2 = .error e2 → op 3 = .ok r →
      run_once_retry op
        = ([RETRY_DELAY_SECONDS * 1, RETRY_DELAY_SECONDS * 2], .ok r) ∧
      ∀ base : Nat, withRetry op 3 base = ([base * 1, base * 2], .ok r) := by
  intro op e1 e2 r h1 h2 h3
  refine ⟨?_, fun base => retry_fail_fail_ok op base e1 e2 r h1 h2 h3⟩
  exact retry_fail_fail_ok op 15 e1 e2 r h1 h2 h3

theorem C9_retry_success_witness :
    run_once_retry (fun a => if a < 3 then Except.error "x"
        else Except.ok "done")
      = ([RETRY_DELAY_SECONDS * 1, RETRY_DELAY_SECONDS * 2],
         .ok "done") ∧
    withRetry (fun a => if a < 3 then Except.error "x"
        else Except.ok "done") 3 10
      = ([10 * 1, 10 * 2], .ok "done") := by
  obtain ⟨ha, hb⟩ := C9_retry_success_linear_backoff
    (fun a => if a < 3 then Except.error "x" else Except.ok "done")
    "x" "x" "done" rfl rfl rfl
  exact ⟨ha, hb 10⟩

/-! ## Helper lemmas for the response parser -/

lemma decodeStage_of_loads_ok (t : String) (v : PyJson)
    (h : jsonLoads t = .ok v) : decodeStage t = some (fromJson v) := by
  unfold decodeStage
  rw [h]

lemma decodeStage_of_loads_err (t : String) (e : Unit)
    (h : jsonLoads t = .error e) : decodeStage t = none := by
  unfold decodeStage
  rw [h]

lemma parse_eq_of_stage1 (s : String) (r : Except PyErr Sug)
    (h : decodeStage (pyStrip (extractFence s)) = some r) :
    _parse_llm_json s = r := by
  simp only [_parse_llm_json]
  rw [h]

lemma parse_eq_of_stage2 (s : String) (r : Except PyErr Sug)
    (h1 : decodeStage (pyStrip (extractFence s)) = none)
    (h : decodeStage (_sanitize_json_string (pyStrip (extractFence s)))
      = some r) :
    _parse_llm_json s = r := by
  simp only [_parse_llm_json]
  rw [h1, h]

lemma parse_eq_of_stage3 (s : String) (r : Except PyErr Sug)
    (h1 : decodeStage (pyStrip (extractFence s)) = none)
    (h2 : decodeStage (_sanitize_json_string (pyStrip (extractFence s)))
      = none)
    (h : regexStage s = some r) :
    _parse_llm_json s = r := by
  simp only [_parse_llm_json]
  rw [h1, h2, h]

lemma parse_eq_of_stage4 (s : String)
    (h1 : decodeStage (pyStrip (extractFence s)) = none)
    (h2 : decodeStage (_sanitize_json_string (pyStrip (extractFence s)))
      = none)
    (h : regexStage s = none) :
    _parse_llm_json s = .ok (fallbackStage s) := by
  simp only [_parse_llm_json]
  rw [h1, h2, h]

lemma getStrField_ok (members : List (String × PyJson)) (k : String)
    (h : fieldOk (objGet members k) = true) :
    ∃ t, getStrField members k = .ok t := by
  cases ho : objGet members k with
  | none => exact ⟨"", by unfold getStrField; rw [ho]⟩
  | some v =>
    rw [ho] at h
    cases v with
    | str s => exact ⟨pyStrip s, by unfold getStrField; rw [ho]⟩
    | null => simp [fieldOk] at h
    | boolean b => simp [fieldOk] at h
    | num q => simp [fieldOk] at h
    | nan => simp [fieldOk] at h
    | inf n => simp [fieldOk] at h
    | arr l => simp [fieldOk] at h
    | obj m => simp [fieldOk] at h

lemma fromJson_ok (v : PyJson) (h : goodValB v = true) :
    ∃ out, fromJson v = .ok out := by
  cases v with
  | obj members =>
    rw [goodValB, Bool.and_eq_true] at h
    obtain ⟨t, ht⟩ := getStrField_ok members "title" h.1
    obtain ⟨b, hb⟩ := getStrField_ok members "body" h.2
    refine ⟨⟨t, b⟩, ?_⟩
    simp only [fromJson, ht, hb]
    rfl
  | null => simp [goodValB] at h
  | boolean b => simp [goodValB] at h
  | num q => simp [goodValB] at h
  | nan => simp [goodValB] at h
  | inf n => simp [goodValB] at h
  | arr l => simp [goodValB] at h
  | str s => simp [goodValB] at h

lemma getStrField_err (members : List (String × PyJson)) (k : String)
    (h : fieldOk (objGet members k) = false) :
    getStrField members k = .error .attributeError := by
  cases ho : objGet members k with
  | none => rw [ho] at h; simp [fieldOk] at h
  | some v =>
    cases v with
    | str s => rw [ho] at h; simp [fieldOk] at h
    | null => unfold getStrField; rw [ho]
    | boolean b => unfold getStrField; rw [ho]
    | num q => unfold getStrField; rw [ho]
    | nan => unfold getStrField; rw [ho]
    | inf n => unfold getStrField; rw [ho]
    | arr l => unfold getStrField; rw [ho]
    | obj m => unfold getStrField; rw [ho]

lemma fromJson_err (v : PyJson) (h : goodValB v = false) :
    ∃ e, fromJson v = .error e := by
  cases v with
  | obj members =>
    cases hft : fieldOk (objGet members "title") with
    | false =>
      refine ⟨.attributeError, ?_⟩
      simp only [fromJson, getStrField_err members "title" hft]
      rfl
    | true =>
      have hfb : fieldOk (objGet members "body") = false := by
        rw [goodValB, hft, Bool.true_and] at h
        exact h
      obtain ⟨t, ht⟩ := getStrField_ok members "title" hft
      refine ⟨.attributeError, ?_⟩
      simp only [fromJson, ht, getStrField_err members "body" hfb]
      rfl
  | null => exact ⟨.attributeError, rfl⟩
  | boolean b => exact ⟨.attributeError, rfl⟩
  | num q => exact ⟨.attributeError, rfl⟩
  | nan => exact ⟨.attributeError, rfl⟩
  | inf n => exact ⟨.attributeError, rfl⟩
  | arr l => exact ⟨.attributeError, rfl⟩
  | str s => exact ⟨.attributeError, rfl⟩

/-- C1 counterexample: on the input `"[1, 2]"` the strict JSON decode
succeeds with a top-level list, and `.get` on a list raises
`AttributeError` — `_parse_llm_json` does not return a record on every
input. -/
theorem C1_parse_counterexample :
    _parse_llm_json "[1, 2]" = .error .attributeError := by rfl

/-- C1 (amended): `_parse_llm_json` terminates normally with string
`title` and `body` fields on exactly the inputs outside the exception set
`parseRaises`: it raises only when the strict JSON decode the cascade
accepts (the direct decode, or the sanitized re-decode when the direct
decode fails) yields a top-level value that is not an object or an object
whose `title` or `body` value is present and not a string
(`AttributeError`), or when both decodes fail and the regex stage
extracts an empty title with no recoverable body (`ValueError` from
splitting on an empty separator); on every other input — the regex stage
being irrelevant whenever a decode succeeds — it returns a record. -/
theorem C1_parse_total_amended :
    ∀ s : String,
      (∃ out, _parse_llm_json s = .ok out) ↔ parseRaises s = false := by
  intro s
  cases hl1 : jsonLoads (pyStrip (extractFence s)) with
  | ok v =>
    have hps : _parse_llm_json s = fromJson v :=
      parse_eq_of_stage1 s _ (decodeStage_of_loads_ok _ _ hl1)
    have hpr : parseRaises s = !goodValB v := by
      unfold parseRaises
      rw [hl1]
    rw [hps, hpr]
    cases hg : goodValB v with
    | true => exact iff_of_true (fromJson_ok v hg) rfl
    | false =>
      obtain ⟨e, he⟩ := fromJson_err v hg
      rw [he]
      exact iff_of_false (by rintro ⟨out, hout⟩; cases hout) (by simp)
  | error e1 =>
    have hst1 := decodeStage_of_loads_err _ _ hl1
    cases hl2 : jsonLoads (_sanitize_json_string (pyStrip (extractFence s))) with
    | ok v =>
      have hps : _parse_llm_json s = fromJson v :=
        parse_eq_of_stage2 s _ hst1 (decodeStage_of_loads_ok _ _ hl2)
      have hpr : parseRaises s = !goodValB v := by
        unfold parseRaises
        rw [hl1, hl2]
      rw [hps, hpr]
      cases hg : goodValB v with
      | true => exact iff_of_true (fromJson_ok v hg) rfl
      | false =>
        obtain ⟨e, he⟩ := fromJson_err v hg
        rw [he]
        exact iff_of_false (by rintro ⟨out, hout⟩; cases hout) (by simp)
    | error e2 =>
      have hst2 := decodeStage_of_loads_err _ _ hl2
      have hpr : parseRaises s = regexRaises s := by
        unfold parseRaises
        rw [hl1, hl2]
      cases hr : regexStage s with
      | none =>
        have hps := parse_eq_of_stage4 s hst1 hst2 hr
        have hrr : regexRaises s = false := by
          unfold regexRaises
          rw [hr]
        rw [hps, hpr, hrr]
        exact iff_of_true ⟨fallbackStage s, rfl⟩ rfl
      | some r =>
        have hps := parse_eq_of_stage3 s r hst1 hst2 hr
        cases r with
        | ok out =>
          have hrr : regexRaises s = false := by
            unfold regexRaises
            rw [hr]
          rw [hps, hpr, hrr]
          exact iff_of_true ⟨out, rfl⟩ rfl
        | error e =>
          have hrr : regexRaises s = true := by
            unfold regexRaises
            rw [hr]
          rw [hps, hpr, hrr]
          exact iff_of_false (by rintro ⟨out, hout⟩; cases hout) (by simp)

theorem C1_parse_total_witness :
    parseRaises "hello world" = false ∧
    (∃ out, _parse_llm_json "hello world" = .ok out) ∧
    regexRaises "\x7b\"title\": \"\", \"body\": \"\"\x7d" = true ∧
    parseRaises "\x7b\"title\": \"\", \"body\": \"\"\x7d" = false ∧
    (∃ out, _parse_llm_json "\x7b\"title\": \"\", \"body\": \"\"\x7d"
      = .ok out) :=
  ⟨by decide, (C1_parse_total_amended "hello world").mpr (by decide),
   by decide, by decide,
   (C1_parse_total_amended
     "\x7b\"title\": \"\", \"body\": \"\"\x7d").mpr (by decide)⟩

/-- C2: on the exact input `{"title": "X", "body": "line1\nline2"}` with a
literal raw newline inside the `body` string value, the strict decode
fails, the sanitization pass escapes the newline, the re-decode succeeds,
and the parser returns `title = "X"` with the embedded newline recovered
intact in `body`. -/
theorem C2_newline_roundtrip :
    _parse_llm_json "\x7b\"title\": \"X\", \"body\": \"line1\nline2\"\x7d"
      = .ok ⟨"X", "line1\nline2"⟩ := by rfl

theorem C7_similarity_witness :
    cleanChars "Ab." = cleanChars "aB" ∧
    simText "Ab." "xyz" = simText "aB" "xyz" ∧
    (∀ c, toLowerChar ((fun c => if c = 'a' then 'A' else c) c)
      = toLowerChar c) ∧
    simText (mapStr (fun c => if c = 'a' then 'A' else c) "abc def") "ghi"
      = simText "abc def" "ghi" ∧
    simText (stripPunctStr "a,b!c") "xyz" = simText "a,b!c" "xyz" := by
  have heq : cleanChars "Ab." = cleanChars "aB" := by decide
  have hf : ∀ c, toLowerChar ((fun c => if c = 'a' then 'A' else c) c)
      = toLowerChar c := by
    intro c
    by_cases h : c = 'a'
    · rw [h]
      decide
    · simp [h]
  exact ⟨heq, C7_similarity_symm_normalization.2.1 "Ab." "aB" "xyz" heq, hf,
    C7_similarity_symm_normalization.2.2.1 _ hf "abc def" "ghi",
    C7_similarity_symm_normalization.2.2.2 "a,b!c" "xyz"⟩
